import Mathlib

/-!
Shallow embedding of the issue analysis pipeline in `app.py`:

* `fetch_all_issues` — the paginated fetch loop (lines 53–93),
* `filter_issues_by_date` — the date filter (lines 96–132),
* the metric computations — per-issue resolution times (lines 166–173),
  open/closed counts (lines 195–200), average resolution (lines 203–207)
  and the day-of-week bucket series (lines 223–226).

Timestamps are modelled as seconds since the Unix epoch (the values
`pd.to_datetime` produces); `None` values are modelled as `none`;
pandas `NaN` cells are modelled as `none` as well.
-/

/-- An issue object as consumed by `app.py`: numeric `number`, `title`,
`created_at`/`closed_at` timestamps (`closed_at` is `none` while open),
`state`, `user.login`, label names, and `pull_request` recording whether
the JSON object carries the `"pull_request"` key that marks a pull
request (`"pull_request" in issue`). -/
structure Issue where
  number : Nat
  title : String
  created_at : Int
  closed_at : Option Int
  state : String
  user_login : String
  labels : List String
  pull_request : Bool
  deriving DecidableEq

/-- An HTTP response to one page request (`requests.get` at line 71):
the status code and the decoded JSON body, a list of issue objects. -/
structure Response where
  status_code : Nat
  json : List Issue
  deriving DecidableEq

/-- The outcome of a run of `fetch_all_issues`, with the side effects
made explicit: `issues` is the Python return value, `requested` the
ordered list of page numbers sent to the API, and `errorShown` whether
`st.error` was invoked (line 74). -/
structure FetchResult where
  issues : List Issue
  requested : List Nat
  errorShown : Bool
  deriving DecidableEq

/-- The `while True` pagination loop of `fetch_all_issues` (lines
61–91).  `pages` maps a page number to the response the server returns
for it.  `fuel` is the number of iterations the `if page > 50: break`
safety check still allows; the loop starts at `page = 1` with
`fuel = 50`, so hitting `fuel = 0` is exactly the Python `page > 50`
break, which returns the accumulated `all_issues`.  A non-200 status
runs `st.error(...)` and `return []`; an empty JSON body breaks the
loop; otherwise pull requests are filtered out, the rest extends
`all_issues`, and the loop moves to the next page. -/
def fetchGo (pages : Nat → Response) : Nat → Nat → List Issue → List Nat → FetchResult
  | 0, _, all_issues, reqs => ⟨all_issues, reqs, false⟩
  | fuel + 1, page, all_issues, reqs =>
    if (pages page).status_code ≠ 200 then
      ⟨[], reqs ++ [page], true⟩
    else if (pages page).json = [] then
      ⟨all_issues, reqs ++ [page], false⟩
    else
      fetchGo pages fuel (page + 1)
        (all_issues ++ (pages page).json.filter (fun issue => !issue.pull_request))
        (reqs ++ [page])

/-- `fetch_all_issues` (lines 53–93): starts at page 1 with an empty
accumulator; the safety break bounds the loop to pages 1..50. -/
def fetch_all_issues (pages : Nat → Response) : FetchResult :=
  fetchGo pages 50 1 [] []

/-- The keyword arguments of `filter_issues_by_date`; each branch of
the filter reads only the field belonging to its filter type. -/
structure Kwargs where
  selected_date : Int
  start_date : Int
  end_date : Int
  n_days : Nat
  n_weeks : Nat
  n_months : Nat
  deriving DecidableEq

/-- The `.date()` of a timestamp: the number of whole days since the
epoch (floor division, so it is the calendar date also before 1970). -/
def dateOf (t : Int) : Int := Int.fdiv t 86400

/-- The per-issue branch chain of `filter_issues_by_date` (lines
106–130): whether one issue passes the selected date filter.  `now` is
the single `datetime.now()` captured before the loop (line 101);
`timedelta(days=n)` is `n * 86400` seconds, `timedelta(weeks=n)` is
`n * 7 * 86400` seconds, and Last N Months uses
`timedelta(days=n_months * 30)`.  A `filter_type` matching no branch
makes every test fall through, so the issue is not kept. -/
def issueMatches (filter_type : String) (kwargs : Kwargs) (now : Int) (created_at : Int) : Bool :=
  if filter_type = "Specific Day" then
    decide (dateOf created_at = dateOf kwargs.selected_date)
  else if filter_type = "Date Range" then
    decide (kwargs.start_date ≤ created_at ∧ created_at ≤ kwargs.end_date)
  else if filter_type = "Last N Days" then
    decide (now - (kwargs.n_days : Int) * 86400 ≤ created_at)
  else if filter_type = "Last N Weeks" then
    decide (now - (kwargs.n_weeks : Int) * (7 * 86400) ≤ created_at)
  else if filter_type = "Last N Months" then
    decide (now - ((kwargs.n_months : Int) * 30) * 86400 ≤ created_at)
  else
    false

/-- The accumulation loop of `filter_issues_by_date` (lines 103–130):
walks the issues in order and appends those passing the filter to
`filtered_issues`. -/
def filterLoop (filter_type : String) (kwargs : Kwargs) (now : Int) : List Issue → List Issue
  | [] => []
  | issue :: rest =>
    if issueMatches filter_type kwargs now issue.created_at then
      issue :: filterLoop filter_type kwargs now rest
    else
      filterLoop filter_type kwargs now rest

/-- `filter_issues_by_date` (lines 96–132).  The `"All Time"` branch
returns the input unchanged before `now` is even read; otherwise the
loop keeps the issues passing the selected predicate, in input order. -/
def filter_issues_by_date (issues : List Issue) (filter_type : String) (kwargs : Kwargs) (now : Int) : List Issue :=
  if filter_type = "All Time" then issues
  else filterLoop filter_type kwargs now issues

/-- Per-issue resolution time (lines 166–173): for a closed issue,
`(closed_at - created_at).total_seconds() / (3600 * 24)` in fractional
days; `None` for an open issue. -/
def resolution_time_days (issue : Issue) : Option ℚ :=
  issue.closed_at.map (fun closed => ((closed - issue.created_at : Int) : ℚ) / (3600 * 24))

/-- The `resolution_times` list accumulated over the filtered issues in
the loop at lines 166–173 (one entry per issue with `closed_at` set, in
input order). -/
def resolution_times (issues : List Issue) : List ℚ :=
  issues.filterMap resolution_time_days

/-- Open-issue count (line 195). -/
def open_count (issues : List Issue) : Nat :=
  (issues.filter (fun issue => issue.state == "open")).length

/-- Closed-issue count (line 199). -/
def closed_count (issues : List Issue) : Nat :=
  (issues.filter (fun issue => issue.state == "closed")).length

/-- `avg_resolution` (lines 203–207): `sum(resolution_times) /
len(resolution_times)` when the list is non-empty; the dashboard shows
`"N/A"` (modelled as `none`) otherwise. -/
def avg_resolution (issues : List Issue) : Option ℚ :=
  if resolution_times issues = [] then none
  else some ((resolution_times issues).sum / ((resolution_times issues).length : ℚ))

/-- The fixed weekday order passed to `reindex` at lines 224–226. -/
def dayNamesList : List String :=
  ["Monday", "Tuesday", "Wednesday", "Thursday", "Friday", "Saturday", "Sunday"]

/-- `day_name()` of a timestamp: 1970-01-01 (epoch day 0) was a
Thursday, so the Monday-based weekday index of epoch day `d` is
`(d + 3) % 7`. -/
def day_name (t : Int) : String :=
  dayNamesList.getD ((Int.fdiv t 86400 + 3) % 7).toNat ""

/-- `dow_counts` (lines 223–226):
`df['Day of Week'].value_counts().reindex(['Monday', ..., 'Sunday'])`.
`value_counts()` lists each weekday that actually occurs together with
its count, and `reindex` (with no `fill_value`) then yields one row per
canonical weekday: the count when the weekday occurs, and `NaN`
(modelled as `none`) when it does not. -/
def dow_counts (issues : List Issue) : List (String × Option Nat) :=
  let dows := issues.map (fun issue => day_name issue.created_at)
  dayNamesList.map (fun d => (d, if dows.count d = 0 then none else some (dows.count d)))

/-! Concrete data used by scenario conjuncts, witnesses and
counterexamples.  Epoch days: 2024-01-01 = 19723 (a Monday),
2024-01-03 = 19725, 2024-06-01 = 19875, 2024-06-05 = 19879,
2024-06-10 = 19884. -/

/-- A closed issue created 2024-01-01 00:00 UTC, closed 2024-01-03. -/
def issueA : Issue :=
  ⟨1, "A", 19723 * 86400, some (19725 * 86400), "closed", "alice", [], false⟩

/-- An open issue created 2024-01-02 00:00 UTC. -/
def issueB : Issue :=
  ⟨2, "B", 19724 * 86400, none, "open", "bob", [], false⟩

/-- An issue created 2024-06-01 00:00 UTC. -/
def issueJun01 : Issue :=
  ⟨3, "J1", 19875 * 86400, none, "open", "carol", [], false⟩

/-- An issue created 2024-06-05 00:00 UTC. -/
def issueJun05 : Issue :=
  ⟨4, "J5", 19879 * 86400, none, "open", "dave", [], false⟩

/-- A server whose page 1 succeeds with one issue and whose page 2
returns 403. -/
def errPages : Nat → Response :=
  fun p => if p = 1 then ⟨200, [issueA]⟩ else ⟨403, []⟩

/-- A server for a legitimately empty repository: every page is an
empty 200. -/
def emptyPages : Nat → Response :=
  fun _ => ⟨200, []⟩

/-- All-zero keyword arguments, for invocations whose branch reads none
of them. -/
def kwargs0 : Kwargs := ⟨0, 0, 0, 0, 0, 0⟩

/-- C5: `filter_issues_by_date` with `"All Time"` returns exactly the
input sequence unchanged — it is the identity on the input. -/
theorem C5_all_time_identity (issues : List Issue) (kwargs : Kwargs) (now : Int) :
    filter_issues_by_date issues "All Time" kwargs now = issues := by
  simp [filter_issues_by_date]

/-- C4: per-issue resolution time is `(closed_at - created_at)` seconds
divided by `3600 * 24`, with fractional precision, when the issue is
closed, and `none` when it is open; in particular the issue created
2024-01-01 and closed 2024-01-03 yields exactly `2` days and the open
issue yields no value. -/
theorem C4_resolution_time (number : Nat) (title : String) (created closedT : Int)
    (state author : String) (labels : List String) (pr : Bool) :
    resolution_time_days ⟨number, title, created, some closedT, state, author, labels, pr⟩ =
      some (((closedT - created : Int) : ℚ) / (3600 * 24)) ∧
    resolution_time_days ⟨number, title, created, none, state, author, labels, pr⟩ = none ∧
    resolution_time_days issueA = some 2 ∧
    resolution_time_days issueB = none := by
  refine ⟨rfl, rfl, ?_, rfl⟩
  show some (((19725 * 86400 - 19723 * 86400 : Int) : ℚ) / (3600 * 24)) = some 2
  norm_num

/-- Unfolding equation for one iteration of the pagination loop. -/
lemma fetchGo_succ (pages : Nat → Response) (fuel page : Nat) (acc : List Issue)
    (reqs : List Nat) :
    fetchGo pages (fuel + 1) page acc reqs =
      if (pages page).status_code ≠ 200 then ⟨[], reqs ++ [page], true⟩
      else if (pages page).json = [] then ⟨acc, reqs ++ [page], false⟩
      else fetchGo pages fuel (page + 1)
        (acc ++ (pages page).json.filter (fun issue => !issue.pull_request))
        (reqs ++ [page]) := rfl

/-- Any number of trailing iterations of the pagination loop: if every
already-requested page succeeded yet some requested page in the final
result has a non-200 status, the loop ended in the error branch, so the
returned issue list is empty and the error message was shown. -/
lemma fetchGo_error_of_bad_status (pages : Nat → Response) :
    ∀ (fuel page : Nat) (acc : List Issue) (reqs : List Nat),
      (∀ q ∈ reqs, (pages q).status_code = 200) →
      (∃ p ∈ (fetchGo pages fuel page acc reqs).requested, (pages p).status_code ≠ 200) →
      (fetchGo pages fuel page acc reqs).issues = [] ∧
        (fetchGo pages fuel page acc reqs).errorShown = true := by
  intro fuel
  induction fuel with
  | zero =>
    intro page acc reqs hgood hbad
    obtain ⟨p, hp, hbadp⟩ := hbad
    exact absurd (hgood p hp) hbadp
  | succ fuel ih =>
    intro page acc reqs hgood hbad
    by_cases hs : (pages page).status_code = 200
    · by_cases hj : (pages page).json = []
      · rw [fetchGo_succ, if_neg (not_not_intro hs), if_pos hj] at hbad ⊢
        obtain ⟨p, hp, hbadp⟩ := hbad
        rcases List.mem_append.mp hp with hp | hp
        · exact absurd (hgood p hp) hbadp
        · rw [List.mem_singleton] at hp
          subst hp
          exact absurd hs hbadp
      · have hgood2 : ∀ q ∈ reqs ++ [page], (pages q).status_code = 200 := by
          intro q hq
          rcases List.mem_append.mp hq with hq | hq
          · exact hgood q hq
          · rw [List.mem_singleton] at hq
            subst hq
            exact hs
        rw [fetchGo_succ, if_neg (not_not_intro hs), if_neg hj] at hbad ⊢
        exact ih (page + 1) _ (reqs ++ [page]) hgood2 hbad
    · rw [fetchGo_succ, if_pos hs]
      exact ⟨rfl, rfl⟩

/-- C1 (amended): a non-success response on any requested page aborts
the whole fetch — the returned issue list is the empty list (earlier
pages' partial data is discarded) and an error message is displayed.
The empty return value itself is the same value a legitimately-empty
repository produces; only the displayed error distinguishes the two. -/
theorem C1_nonsuccess_aborts_with_empty_result (pages : Nat → Response)
    (h : ∃ p ∈ (fetch_all_issues pages).requested, (pages p).status_code ≠ 200) :
    (fetch_all_issues pages).issues = [] ∧ (fetch_all_issues pages).errorShown = true :=
  fetchGo_error_of_bad_status pages 50 1 [] [] (by intro q hq; simp at hq) h

/-- C1 witness: a 403 on page 2 after a successful non-empty page 1. -/
theorem C1_witness :
    (∃ p ∈ (fetch_all_issues errPages).requested, (errPages p).status_code ≠ 200) ∧
    (fetch_all_issues errPages).issues = [] ∧ (fetch_all_issues errPages).errorShown = true :=
  ⟨⟨2, by decide, by decide⟩,
    C1_nonsuccess_aborts_with_empty_result errPages ⟨2, by decide, by decide⟩⟩

/-- C1 counterexample: with a 403 on page 2 after a successful page 1,
the returned value of `fetch_all_issues` equals the value returned for
a legitimately-empty repository — the empty list — so the overall
result is not distinct from the empty result (it is distinct from the
partial page-1 data, which is non-empty). -/
theorem C1_counterexample :
    (fetch_all_issues errPages).issues = (fetch_all_issues emptyPages).issues ∧
    (fetch_all_issues errPages).issues = [] ∧
    [issueA] ≠ ([] : List Issue) := by
  refine ⟨?_, ?_, by decide⟩ <;> decide

/-- The pagination loop issues at most `fuel` further page requests. -/
lemma fetchGo_requested_length (pages : Nat → Response) :
    ∀ (fuel page : Nat) (acc : List Issue) (reqs : List Nat),
      (fetchGo pages fuel page acc reqs).requested.length ≤ reqs.length + fuel := by
  intro fuel
  induction fuel with
  | zero =>
    intro page acc reqs
    exact Nat.le_add_right _ _
  | succ fuel ih =>
    intro page acc reqs
    rw [fetchGo_succ]
    by_cases hs : (pages page).status_code = 200
    · by_cases hj : (pages page).json = []
      · rw [if_neg (not_not_intro hs), if_pos hj]
        simp only [List.length_append, List.length_singleton]
        omega
      · rw [if_neg (not_not_intro hs), if_neg hj]
        have := ih (page + 1)
          (acc ++ (pages page).json.filter (fun issue => !issue.pull_request)) (reqs ++ [page])
        simp only [List.length_append, List.length_singleton] at this
        omega
    · rw [if_pos hs]
      simp only [List.length_append, List.length_singleton]
      omega

/-- Every page number the loop requests is an old one or lies in the
window `[page, page + fuel)`. -/
lemma fetchGo_requested_mem (pages : Nat → Response) :
    ∀ (fuel page : Nat) (acc : List Issue) (reqs : List Nat),
      ∀ p ∈ (fetchGo pages fuel page acc reqs).requested,
        p ∈ reqs ∨ (page ≤ p ∧ p < page + fuel) := by
  intro fuel
  induction fuel with
  | zero =>
    intro page acc reqs p hp
    exact Or.inl hp
  | succ fuel ih =>
    intro page acc reqs p hp
    rw [fetchGo_succ] at hp
    by_cases hs : (pages page).status_code = 200
    · by_cases hj : (pages page).json = []
      · rw [if_neg (not_not_intro hs), if_pos hj] at hp
        rcases List.mem_append.mp hp with hp | hp
        · exact Or.inl hp
        · rw [List.mem_singleton] at hp
          subst hp
          exact Or.inr ⟨Nat.le_refl _, by omega⟩
      · rw [if_neg (not_not_intro hs), if_neg hj] at hp
        rcases ih (page + 1) _ (reqs ++ [page]) p hp with hp | hp
        · rcases List.mem_append.mp hp with hp | hp
          · exact Or.inl hp
          · rw [List.mem_singleton] at hp
            subst hp
            exact Or.inr ⟨Nat.le_refl _, by omega⟩
        · exact Or.inr ⟨by omega, by omega⟩
    · rw [if_pos hs] at hp
      rcases List.mem_append.mp hp with hp | hp
      · exact Or.inl hp
      · rw [List.mem_singleton] at hp
        subst hp
        exact Or.inr ⟨Nat.le_refl _, by omega⟩

/-- If every page body holds at most `B` entries, the loop adds at most
`fuel * B` issues to the accumulator. -/
lemma fetchGo_issues_length (pages : Nat → Response) (B : Nat)
    (hB : ∀ p, (pages p).json.length ≤ B) :
    ∀ (fuel page : Nat) (acc : List Issue) (reqs : List Nat),
      (fetchGo pages fuel page acc reqs).issues.length ≤ acc.length + fuel * B := by
  intro fuel
  induction fuel with
  | zero =>
    intro page acc reqs
    simp [fetchGo]
  | succ fuel ih =>
    intro page acc reqs
    rw [fetchGo_succ]
    by_cases hs : (pages page).status_code = 200
    · by_cases hj : (pages page).json = []
      · rw [if_neg (not_not_intro hs), if_pos hj]
        exact Nat.le_add_right _ _
      · rw [if_neg (not_not_intro hs), if_neg hj]
        have h1 := ih (page + 1)
          (acc ++ (pages page).json.filter (fun issue => !issue.pull_request)) (reqs ++ [page])
        have h2 : ((pages page).json.filter (fun issue => !issue.pull_request)).length ≤ B :=
          Nat.le_trans (List.length_filter_le _ _) (hB page)
        simp only [List.length_append] at h1
        have h3 : (fuel + 1) * B = fuel * B + B := by ring
        omega
    · rw [if_pos hs]
      simp

/-- Once a page with an empty body is within reach, the loop never
requests a page beyond it: it stops at the first empty page. -/
lemma fetchGo_stops_at_empty (pages : Nat → Response) (k : Nat)
    (hk : (pages k).json = []) :
    ∀ (fuel page : Nat) (acc : List Issue) (reqs : List Nat),
      (∀ q ∈ reqs, q ≤ k) → page ≤ k →
      ∀ p ∈ (fetchGo pages fuel page acc reqs).requested, p ≤ k := by
  intro fuel
  induction fuel with
  | zero =>
    intro page acc reqs hreqs hpage p hp
    exact hreqs p hp
  | succ fuel ih =>
    intro page acc reqs hreqs hpage p hp
    rw [fetchGo_succ] at hp
    have hmem : ∀ q ∈ reqs ++ [page], q ≤ k := by
      intro q hq
      rcases List.mem_append.mp hq with hq | hq
      · exact hreqs q hq
      · rw [List.mem_singleton] at hq
        subst hq
        exact hpage
    by_cases hs : (pages page).status_code = 200
    · by_cases hj : (pages page).json = []
      · rw [if_neg (not_not_intro hs), if_pos hj] at hp
        exact hmem p hp
      · have hne : page ≠ k := fun h => hj (h ▸ hk)
        rw [if_neg (not_not_intro hs), if_neg hj] at hp
        exact ih (page + 1) _ (reqs ++ [page]) hmem (by omega) p hp
    · rw [if_pos hs] at hp
      exact hmem p hp

/-- C8: the pagination loop terminates, requesting at most 50 pages
(all numbered 1..50); it stops at the first page returning no issues;
and when every page holds at most 100 entries the accumulated result
never exceeds 5000 issues. -/
theorem C8_pagination_bounded (pages : Nat → Response)
    (hsize : ∀ p, (pages p).json.length ≤ 100) :
    (fetch_all_issues pages).requested.length ≤ 50 ∧
    (∀ p ∈ (fetch_all_issues pages).requested, 1 ≤ p ∧ p ≤ 50) ∧
    (fetch_all_issues pages).issues.length ≤ 5000 ∧
    ∀ k, (pages k).json = [] → 1 ≤ k →
      ∀ p ∈ (fetch_all_issues pages).requested, p ≤ k := by
  refine ⟨?_, ?_, ?_, ?_⟩
  · have h := fetchGo_requested_length pages 50 1 [] []
    simpa using h
  · intro p hp
    rcases fetchGo_requested_mem pages 50 1 [] [] p hp with h | h
    · simp at h
    · omega
  · have h := fetchGo_issues_length pages 100 hsize 50 1 [] []
    simpa using h
  · intro k hk hk1 p hp
    exact fetchGo_stops_at_empty pages k hk 50 1 [] []
      (by intro q hq; simp at hq) hk1 p hp

/-- C8 witness: the empty repository server satisfies the page-size
bound and the conclusion concretely. -/
theorem C8_witness :
    (∀ p, (emptyPages p).json.length ≤ 100) ∧
    ((fetch_all_issues emptyPages).requested.length ≤ 50 ∧
     (∀ p ∈ (fetch_all_issues emptyPages).requested, 1 ≤ p ∧ p ≤ 50) ∧
     (fetch_all_issues emptyPages).issues.length ≤ 5000 ∧
     ∀ k, (emptyPages k).json = [] → 1 ≤ k →
       ∀ p ∈ (fetch_all_issues emptyPages).requested, p ≤ k) :=
  ⟨fun p => by simp [emptyPages],
    C8_pagination_bounded emptyPages (fun p => by simp [emptyPages])⟩

/-- The loop preserves the invariant that the accumulator holds no pull
request: page bodies are filtered before extending it. -/
lemma fetchGo_no_pr (pages : Nat → Response) :
    ∀ (fuel page : Nat) (acc : List Issue) (reqs : List Nat),
      (∀ i ∈ acc, i.pull_request = false) →
      ∀ i ∈ (fetchGo pages fuel page acc reqs).issues, i.pull_request = false := by
  intro fuel
  induction fuel with
  | zero =>
    intro page acc reqs hacc i hi
    exact hacc i hi
  | succ fuel ih =>
    intro page acc reqs hacc i hi
    rw [fetchGo_succ] at hi
    by_cases hs : (pages page).status_code = 200
    · by_cases hj : (pages page).json = []
      · rw [if_neg (not_not_intro hs), if_pos hj] at hi
        exact hacc i hi
      · rw [if_neg (not_not_intro hs), if_neg hj] at hi
        refine ih (page + 1) _ (reqs ++ [page]) ?_ i hi
        intro j hj2
        rcases List.mem_append.mp hj2 with hj2 | hj2
        · exact hacc j hj2
        · have := (List.mem_filter.mp hj2).2
          simpa using this
    · rw [if_pos hs] at hi
      simp at hi

/-- C9: no element of the issue list returned by `fetch_all_issues`
carries the pull-request marker — pull requests are excluded before
accumulation, for every sequence of page responses. -/
theorem C9_no_pull_requests (pages : Nat → Response) :
    ∀ i ∈ (fetch_all_issues pages).issues, i.pull_request = false :=
  fetchGo_no_pr pages 50 1 [] [] (by intro i hi; simp at hi)

/-- A pull-request entry, and a server whose page 1 mixes it with a
plain issue. -/
def issuePR : Issue :=
  ⟨5, "PR", 19723 * 86400, none, "open", "eve", [], true⟩

/-- Page 1 holds one issue and one pull request; later pages are empty. -/
def mixedPages : Nat → Response :=
  fun p => if p = 1 then ⟨200, [issueA, issuePR]⟩ else ⟨200, []⟩

/-- C9 witness: the mixed server's fetch keeps the plain issue, which
indeed carries no pull-request marker. -/
theorem C9_witness :
    issueA ∈ (fetch_all_issues mixedPages).issues ∧ issueA.pull_request = false :=
  ⟨by decide, C9_no_pull_requests mixedPages issueA (by decide)⟩

/-- The append loop of the filter builds exactly `List.filter` of the
per-issue predicate. -/
lemma filterLoop_eq_filter (ft : String) (kw : Kwargs) (now : Int) :
    ∀ issues : List Issue,
      filterLoop ft kw now issues =
        issues.filter (fun issue => issueMatches ft kw now issue.created_at) := by
  intro issues
  induction issues with
  | nil => rfl
  | cons issue rest ih =>
    cases h : issueMatches ft kw now issue.created_at <;>
      simp [filterLoop, List.filter_cons, h, ih]

/-- C6: for every filter type and arguments, the output of
`filter_issues_by_date` is a subsequence of the input — every output
element occurs in the input and in the same relative order. -/
theorem C6_filter_is_sublist (issues : List Issue) (ft : String) (kw : Kwargs) (now : Int) :
    (filter_issues_by_date issues ft kw now).Sublist issues := by
  unfold filter_issues_by_date
  by_cases h : ft = "All Time"
  · rw [if_pos h]
  · rw [if_neg h, filterLoop_eq_filter]
    exact List.filter_sublist _

/-- C7: the three relative filters compare `created_at` against a
single cutoff computed once from `now` — `now - n` days, `now - 7n`
days and `now - 30n` days respectively — keeping exactly the issues at
or after the cutoff; in particular, Last N Days with `n = 7` and `now`
at 2024-06-10 drops the issue created 2024-06-01 and keeps the one
created 2024-06-05. -/
theorem C7_relative_filters (issues : List Issue) (kw : Kwargs) (now : Int) :
    (filter_issues_by_date issues "Last N Days" kw now =
      issues.filter (fun issue =>
        decide (now - (kw.n_days : Int) * 86400 ≤ issue.created_at))) ∧
    (filter_issues_by_date issues "Last N Weeks" kw now =
      issues.filter (fun issue =>
        decide (now - (kw.n_weeks : Int) * (7 * 86400) ≤ issue.created_at))) ∧
    (filter_issues_by_date issues "Last N Months" kw now =
      issues.filter (fun issue =>
        decide (now - ((kw.n_months : Int) * 30) * 86400 ≤ issue.created_at))) ∧
    filter_issues_by_date [issueJun01, issueJun05] "Last N Days"
      ⟨0, 0, 0, 7, 0, 0⟩ (19884 * 86400) = [issueJun05] := by
  refine ⟨?_, ?_, ?_, by decide⟩ <;>
  · unfold filter_issues_by_date
    rw [if_neg (by decide), filterLoop_eq_filter]
    rfl

/-- C10: a `filter_type` string matching none of the six recognized
names makes every branch fall through for every issue, so the filter
returns the empty list — not the input, and not an error. -/
theorem C10_unrecognized_filter_drops_all (issues : List Issue) (kw : Kwargs) (now : Int)
    (ft : String)
    (h : ft ∉ ["All Time", "Specific Day", "Date Range", "Last N Days", "Last N Weeks",
      "Last N Months"]) :
    filter_issues_by_date issues ft kw now = [] := by
  simp only [List.mem_cons, List.not_mem_nil, or_false, not_or] at h
  obtain ⟨h1, h2, h3, h4, h5, h6⟩ := h
  unfold filter_issues_by_date
  rw [if_neg h1, filterLoop_eq_filter]
  refine List.filter_eq_nil_iff.mpr ?_
  intro issue _
  unfold issueMatches
  rw [if_neg h2, if_neg h3, if_neg h4, if_neg h5, if_neg h6]
  simp

/-- C10 witness: a bogus filter type on a non-empty issue list. -/
theorem C10_witness :
    ("bogus" ∉ ["All Time", "Specific Day", "Date Range", "Last N Days", "Last N Weeks",
      "Last N Months"]) ∧
    filter_issues_by_date [issueA] "bogus" kwargs0 0 = [] :=
  ⟨by decide, C10_unrecognized_filter_drops_all [issueA] kwargs0 0 "bogus" (by decide)⟩

/-- Summing a one-point indicator over a list counts the occurrences
of the point. -/
lemma sum_map_indicator (x : String) :
    ∀ names : List String,
      (names.map (fun d => if x = d then 1 else 0)).sum = names.count x := by
  intro names
  induction names with
  | nil => simp
  | cons d names ih =>
    rw [List.map_cons, List.sum_cons, ih, List.count_cons]
    simp only [beq_iff_eq]
    by_cases h : d = x
    · subst h
      simp [Nat.add_comm]
    · simp [h, Ne.symm h]

/-- Pointwise sums distribute over a mapped list sum. -/
lemma sum_map_add_pointwise (f g : String → Nat) :
    ∀ names : List String,
      (names.map (fun d => f d + g d)).sum = (names.map f).sum + (names.map g).sum := by
  intro names
  induction names with
  | nil => simp
  | cons d names ih =>
    simp only [List.map_cons, List.sum_cons, ih]
    omega

/-- Occurrence counts over a duplicate-free list of names covering
every element of `xs` sum to the length of `xs`. -/
lemma sum_counts_eq_length (names : List String) (hn : names.Nodup) :
    ∀ xs : List String, (∀ x ∈ xs, x ∈ names) →
      (names.map (fun d => xs.count d)).sum = xs.length := by
  intro xs
  induction xs with
  | nil =>
    intro _
    simp
  | cons x xs ih =>
    intro hmem
    have hx : x ∈ names := hmem x (List.mem_cons_self x xs)
    have hxs : ∀ y ∈ xs, y ∈ names := fun y hy => hmem y (List.mem_cons_of_mem x hy)
    have hpt : ∀ d ∈ names, (x :: xs).count d = xs.count d + (if x = d then 1 else 0) := by
      intro d _
      rw [List.count_cons]
      simp [beq_iff_eq]
    rw [List.map_congr_left hpt, sum_map_add_pointwise, sum_map_indicator, ih hxs,
      List.count_eq_one_of_mem hn hx, List.length_cons]

/-- Every weekday name the grouping produces is one of the seven
canonical names. -/
lemma day_name_mem (t : Int) : day_name t ∈ dayNamesList := by
  have h1 : 0 ≤ (Int.fdiv t 86400 + 3) % 7 := Int.emod_nonneg _ (by norm_num)
  have h2 : (Int.fdiv t 86400 + 3) % 7 < 7 := Int.emod_lt_of_pos _ (by norm_num)
  have h7 : ((Int.fdiv t 86400 + 3) % 7).toNat < dayNamesList.length := by
    simp only [dayNamesList, List.length_cons, List.length_nil]
    omega
  unfold day_name
  rw [List.getD_eq_getElem _ _ h7]
  exact List.getElem_mem h7

/-- C2 (amended): the day-of-week grouping always yields exactly 7
buckets in the fixed Monday..Sunday order, and the defined bucket
values sum to the filtered issue count; but a weekday with no issues
gets a missing value (`NaN`, modelled `none`), never the number 0 —
the `reindex` has no `fill_value`. -/
theorem C2_dow_buckets (issues : List Issue) :
    (dow_counts issues).map Prod.fst = dayNamesList ∧
    (dow_counts issues).length = 7 ∧
    ((dow_counts issues).map (fun b => b.2.getD 0)).sum = issues.length ∧
    ∀ b ∈ dow_counts issues, b.2 ≠ some 0 := by
  refine ⟨?_, ?_, ?_, ?_⟩
  · rfl
  · rfl
  · simp only [dow_counts, List.map_map]
    set dows := issues.map (fun issue => day_name issue.created_at) with hdows
    have hmem : ∀ x ∈ dows, x ∈ dayNamesList := by
      intro x hx
      rw [hdows] at hx
      obtain ⟨issue, _, rfl⟩ := List.mem_map.mp hx
      exact day_name_mem _
    have hpt : ∀ d ∈ dayNamesList,
        ((fun b : String × Option Nat => b.2.getD 0) ∘
          fun d => (d, if dows.count d = 0 then none else some (dows.count d))) d
          = dows.count d := by
      intro d _
      by_cases h : dows.count d = 0 <;> simp [Function.comp, h]
    rw [List.map_congr_left hpt, sum_counts_eq_length dayNamesList (by decide) dows hmem,
      hdows, List.length_map]
  · intro b hb
    simp only [dow_counts, List.mem_map] at hb
    obtain ⟨d, _, rfl⟩ := hb
    by_cases h : ((issues.map (fun issue => day_name issue.created_at)).count d) = 0 <;>
      simp [h]

/-- C2 witness: on one issue created on a Monday, the Monday bucket is
present and its value is not `some 0`. -/
theorem C2_witness :
    (("Monday", (some 1 : Option Nat)) ∈ dow_counts [issueA]) ∧
    (some 1 : Option Nat) ≠ some 0 :=
  ⟨by decide, (C2_dow_buckets [issueA]).2.2.2 ("Monday", some 1) (by decide)⟩

/-- C2 counterexample: a single issue created on Monday 2024-01-01
leaves the Tuesday bucket with the missing value `none`, not with the
count 0 the claim requires. -/
theorem C2_counterexample :
    ("Tuesday", (none : Option Nat)) ∈ dow_counts [issueA] ∧
    ("Tuesday", (some 0 : Option Nat)) ∉ dow_counts [issueA] := by
  constructor <;> decide

/-- Under the spec's well-formedness invariant (`closed_at` present iff
`state == "closed"`, §3), the `resolution_times` list is empty exactly
when the filtered set holds zero closed issues. -/
lemma resolution_times_nil_iff :
    ∀ issues : List Issue,
      (∀ i ∈ issues, (i.closed_at ≠ none ↔ i.state = "closed")) →
      (resolution_times issues = [] ↔ closed_count issues = 0) := by
  intro issues
  induction issues with
  | nil =>
    intro _
    simp [resolution_times, closed_count]
  | cons i rest ih =>
    intro hw
    have hi := hw i (List.mem_cons_self i rest)
    have ih2 := ih (fun j hj => hw j (List.mem_cons_of_mem i hj))
    cases hc : i.closed_at with
    | none =>
      have hstate : (i.state == "closed") = false := by
        rw [beq_eq_false_iff_ne]
        intro hs
        exact (hi.mpr hs) hc
      have e1 : resolution_times (i :: rest) = resolution_times rest := by
        simp [resolution_times, resolution_time_days, hc]
      have e2 : closed_count (i :: rest) = closed_count rest := by
        simp [closed_count, List.filter_cons, hstate]
      rw [e1, e2]
      exact ih2
    | some c =>
      have hstate : (i.state == "closed") = true := by
        rw [beq_iff_eq]
        exact hi.mp (by simp [hc])
      have e1 : resolution_times (i :: rest) =
          ((c - i.created_at : Int) : ℚ) / (3600 * 24) :: resolution_times rest := by
        simp [resolution_times, resolution_time_days, hc]
      have e2 : closed_count (i :: rest) = closed_count rest + 1 := by
        simp [closed_count, List.filter_cons, hstate]
      rw [e1, e2]
      simp

/-- C3: with well-formed data (`closed_at` set exactly for closed
issues), a filtered set with zero closed issues yields `none` as
average resolution time — an explicit no-value marker, never the
number zero — and as soon as at least one resolution time is defined,
the average is the arithmetic mean (sum over count) of the defined
values. -/
theorem C3_avg_resolution (issues : List Issue)
    (hw : ∀ i ∈ issues, (i.closed_at ≠ none ↔ i.state = "closed")) :
    (closed_count issues = 0 → avg_resolution issues = none) ∧
    (closed_count issues ≠ 0 →
      avg_resolution issues =
        some ((resolution_times issues).sum / ((resolution_times issues).length : ℚ))) := by
  constructor
  · intro h0
    have he := (resolution_times_nil_iff issues hw).mpr h0
    unfold avg_resolution
    rw [if_pos he]
  · intro h0
    have hne : ¬ resolution_times issues = [] := by
      intro he
      exact h0 ((resolution_times_nil_iff issues hw).mp he)
    unfold avg_resolution
    rw [if_neg hne]

/-- C3 witness: one closed and one open issue; both parts of the
conclusion at that concrete input. -/
theorem C3_witness :
    (∀ i ∈ [issueA, issueB], (i.closed_at ≠ none ↔ i.state = "closed")) ∧
    ((closed_count [issueA, issueB] = 0 → avg_resolution [issueA, issueB] = none) ∧
     (closed_count [issueA, issueB] ≠ 0 →
       avg_resolution [issueA, issueB] =
         some ((resolution_times [issueA, issueB]).sum /
           ((resolution_times [issueA, issueB]).length : ℚ)))) :=
  ⟨by decide, C3_avg_resolution [issueA, issueB] (by decide)⟩
